import Mathlib

/-!
Verification of the text-normalization core of the vacina-data-visor backend.

The definitions below are a shallow embedding of
`src/backend/services/etl_normalize.py` (rule loading, sigla normalization,
insumo normalization) and of the quantity aggregation in `src/backend/app.py`
(`overview` and `timeseries`).

Python's `re` module is modelled by an oracle `ReEnv`: `compileOk p` says
whether `re.compile(p)` succeeds, and `search p t` gives the result of
`re.search(p, t, re.IGNORECASE)` for patterns that compile.  The regexes that
are hard-coded in the source (the SES prefix strip, the UF suffix test, the
diluent candidate extraction, the cleaning character class and the
SARS/COVID fallback) are embedded concretely by their matching semantics.
Case mapping and digit classes are modelled on ASCII (the data handled by the
service is ASCII), and the diluent extraction regex is modelled by its
semantics on newline-free text (`$` / `.` newline subtleties are not
represented).
-/

/-- Python `\s` whitespace class, ASCII part (space, tab, newline, carriage
return, vertical tab, form feed). -/
def isPySpace (c : Char) : Bool :=
  c = ' ' || c = '\t' || c = '\n' || c = '\r' || c.toNat = 11 || c.toNat = 12

/-- Python `str.strip()` on a list of characters: drop whitespace at both ends. -/
def stripL (l : List Char) : List Char :=
  ((l.dropWhile isPySpace).reverse.dropWhile isPySpace).reverse

/-- Python `str.upper()` (ASCII case mapping). -/
def upperL (l : List Char) : List Char := l.map Char.toUpper

/-- Python `str.lower()` (ASCII case mapping). -/
def lowerL (l : List Char) : List Char := l.map Char.toLower

/-- Whether `p` occurs as a contiguous substring of `l` (Python `p in l`). -/
def containsSub (p : List Char) : List Char → Bool
  | [] => decide (p = [])
  | c :: t => p.isPrefixOf (c :: t) || containsSub p t

/-- Suffix of `l` strictly after the first occurrence of `p`, if `p` occurs. -/
def splitFirst (p : List Char) : List Char → Option (List Char)
  | [] => if p = [] then some [] else none
  | c :: t => if p.isPrefixOf (c :: t) then some (List.drop p.length (c :: t))
              else splitFirst p t

/-- One rule record of `mappings.json` as read by the ETL script: a regex (or
literal) `pattern`, the canonical label `vacina_normalizada` (absent labels are
read back as `None` by `m.get`), and an optional integer `priority`. -/
structure Mapping where
  pattern : String
  vacina_normalizada : Option String
  priority : Option Int
deriving DecidableEq

/-- The sort key `x.get("priority", 100)` used by `load_mappings`
(etl_normalize.py line 20). -/
def priGet (m : Mapping) : Int := m.priority.getD 100

/-- The ordering used by the Rule Store: ascending priority. -/
def keyLE (a b : Mapping) : Prop := priGet a ≤ priGet b

instance : DecidableRel keyLE := fun a b =>
  inferInstanceAs (Decidable (priGet a ≤ priGet b))

instance : IsTotal Mapping keyLE := ⟨fun a b => Int.le_total (priGet a) (priGet b)⟩

instance : IsTrans Mapping keyLE := ⟨fun _ _ _ hab hbc => le_trans hab hbc⟩

/-- Model of `load_mappings` (etl_normalize.py lines 16-20): `sorted(data, key=lambda
x: x.get("priority", 100))`.  Python's `sorted` is the unique stable ascending
sort, which as a function on lists coincides with stable insertion sort. -/
def loadMappings (l : List Mapping) : List Mapping := List.insertionSort keyLE l

/-- Oracle for Python's `re` module (see file header). -/
structure ReEnv where
  compileOk : String → Bool
  search : String → String → Bool

/-- The substring fallback `pattern.lower() in tx.lower()` used in the
`except re.error` branches (etl_normalize.py lines 56, 85). -/
def substrCI (pat tx : String) : Bool :=
  containsSub (lowerL pat.data) (lowerL tx.data)

/-- One rule test of the matching loops (etl_normalize.py lines 51-58 and
80-87): `try: re.search(pattern, tx, re.IGNORECASE) except re.error:
pattern.lower() in tx.lower()`. -/
def tryMatch (env : ReEnv) (pat tx : String) : Bool :=
  if env.compileOk pat then env.search pat tx else substrCI pat tx

/-- The first rule of `maps` whose pattern matches `tx` (the `for m in
mappings: ... return` loops). -/
def firstMatch (env : ReEnv) (maps : List Mapping) (tx : String) : Option Mapping :=
  match maps with
  | [] => none
  | m :: rest => if tryMatch env m.pattern tx then some m else firstMatch env rest tx

/-- Direct pass (etl_normalize.py lines 49-58): label of the first matching
rule; `none` when no rule matches (in which case the code falls through). -/
def directPass (env : ReEnv) (maps : List Mapping) (tx : String) : Option (Option String) :=
  (firstMatch env maps tx).map (fun m => m.vacina_normalizada)

/-- The keyword `"DILUENTE"` as a character list. -/
def dilu : List Char := "DILUENTE".data

/-- Skipping the optional connective group of the extraction regex
`VACINA(?:\s*(?:P/|PARA|CONTRA)\s*)?(.*)$`: greedily skip whitespace, then one
of `P/`, `PARA`, `CONTRA`, then whitespace; if no alternative is found the
whole optional group matches nothing and the capture starts right after
`VACINA`. -/
def skipConnective (rest : List Char) : List Char :=
  let w := rest.dropWhile isPySpace
  if "P/".data.isPrefixOf w then (w.drop 2).dropWhile isPySpace
  else if "PARA".data.isPrefixOf w then (w.drop 4).dropWhile isPySpace
  else if "CONTRA".data.isPrefixOf w then (w.drop 6).dropWhile isPySpace
  else rest

/-- Suffix after the last occurrence of `"DILUENTE"` — the effect of
`re.sub(r".*DILUENTE.*?", "", tx_upper)` on newline-free text (the greedy
`.*` makes the single replaced match run through the last `DILUENTE`). -/
def afterLastDilu (l : List Char) : List Char :=
  match h : splitFirst dilu l with
  | none => l
  | some r => afterLastDilu r
termination_by l.length
decreasing_by
  have key : ∀ (ll rr : List Char), splitFirst dilu ll = some rr → rr.length < ll.length := by
    intro ll
    induction ll with
    | nil =>
      intro rr hh
      rw [splitFirst, if_neg (by decide : ¬(dilu = []))] at hh
      exact absurd hh (by simp)
    | cons c t ih =>
      intro rr hh
      simp only [splitFirst] at hh
      by_cases hpre : dilu.isPrefixOf (c :: t)
      · rw [if_pos hpre] at hh
        cases hh
        have hplen : 0 < dilu.length := by decide
        simp only [List.length_drop, List.length_cons]
        omega
      · rw [if_neg hpre] at hh
        exact Nat.lt_trans (ih rr hh) (by simp)
  exact key l r h

/-- Candidate extraction of the diluent pass (etl_normalize.py lines 66-72):
capture of `VACINA(?:\s*(?:P/|PARA|CONTRA)\s*)?(.*)$` stripped, or, when
`VACINA` does not occur, the stripped remainder after `DILUENTE`. -/
def extractCandidate (u : List Char) : List Char :=
  match splitFirst "VACINA".data u with
  | some rest => stripL (skipConnective rest)
  | none => stripL (afterLastDilu u)

/-- Characters removed by the cleaning step `re.sub(r"[\-\(\)\,\d]", "", _)`
(etl_normalize.py line 76). -/
def isRemovedChar (c : Char) : Bool :=
  c = '-' || c = '(' || c = ')' || c = ',' || c.isDigit

/-- Cleaning step: remove hyphens, parentheses, commas and digits, then
strip. -/
def cleanL (c : List Char) : List Char :=
  stripL (c.filter (fun ch => !(isRemovedChar ch)))

/-- Diluent pass (etl_normalize.py lines 60-87): gated on `"DILUENTE" in
tx.upper()`; extract a candidate, and only when the extracted candidate is
non-empty (`if candidate:`) clean it and re-run the rule loop on it.  Note the
emptiness test happens before the cleaning step. -/
def diluentPass (env : ReEnv) (maps : List Mapping) (tx : String) : Option (Option String) :=
  let u := upperL tx.data
  if containsSub dilu u then
    let cand := extractCandidate u
    if cand.isEmpty then none
    else (firstMatch env maps (String.mk (cleanL cand))).map (fun m => m.vacina_normalizada)
  else none

/-- The fixed fallback regex `SARS[- ]?COV2|COVID[- ]?19` with `re.IGNORECASE`
(etl_normalize.py line 90): it matches exactly when one of the six literal
variants occurs in the uppercased text. -/
def diseaseMatch (tx : String) : Bool :=
  let u := upperL tx.data
  containsSub "SARS-COV2".data u || containsSub "SARS COV2".data u ||
  containsSub "SARSCOV2".data u || containsSub "COVID-19".data u ||
  containsSub "COVID 19".data u || containsSub "COVID19".data u

/-- The value assigned to `tx_insumo_norm` for a non-empty input text
(etl_normalize.py lines 48-95): direct pass, else diluent pass, else the
COVID-19 fallback, else `None`. -/
def insumoCore (env : ReEnv) (maps : List Mapping) (tx : String) : Option String :=
  match directPass env maps tx with
  | some lbl => lbl
  | none =>
    match diluentPass env maps tx with
    | some lbl => lbl
    | none => if diseaseMatch tx then some "Covid-19" else none

/-- Model of `normalize_insumo(raw)` at the service boundary: `None` or empty input
gives `None` (etl_normalize.py lines 44-47), otherwise the pass pipeline. -/
def normalizeInsumo (env : ReEnv) (maps : List Mapping) (raw : Option String) : Option String :=
  match raw with
  | Option.none => none
  | Option.some s => if s = "" then none else insumoCore env maps s

/-- Character class of the SES prefix regex `^SES[\-\s./]*`. -/
def sesClass (c : Char) : Bool := c = '-' || isPySpace c || c = '.' || c = '/'

/-- Model of `re.sub` with pattern `^SES[\-\s./]*` (etl_normalize.py line 32): the
anchored pattern matches at most once, at the start, when the literal `SES`
is present, greedily taking the following class characters. -/
def sesStrip (l : List Char) : List Char :=
  if "SES".data.isPrefixOf l then (l.drop 3).dropWhile sesClass else l

/-- ASCII uppercase letter (`[A-Z]`). -/
def isUpAZ (c : Char) : Bool := 'A' ≤ c && c ≤ 'Z'

/-- Success of `re.search` with pattern `([A-Z]{2})$`: the (whitespace-stripped) text
ends in two ASCII uppercase letters. -/
def endsTwoUp (l : List Char) : Bool :=
  match l.reverse with
  | a :: b :: _ => isUpAZ a && isUpAZ b
  | _ => false

/-- The last two characters of `l` (used when `endsTwoUp` holds). -/
def lastTwo (l : List Char) : List Char :=
  match l.reverse with
  | a :: b :: _ => [b, a]
  | _ => l

/-- Core of `_normalize_tx_sigla` for a truthy string input (etl_normalize.py
lines 30-39): strip, uppercase, drop the SES prefix, then the two-letter UF
suffix if present, else the first two characters (the whole string when it is
shorter than two characters). -/
def siglaCore (s : String) : String :=
  let t := upperL (stripL s.data)
  let t2 := sesStrip t
  if endsTwoUp t2 then String.mk (lastTwo t2)
  else if t2.length ≥ 2 then String.mk (t2.take 2)
  else String.mk t2

/-- Model of `normalize_sigla(raw)` at the service boundary (etl_normalize.py lines
25-40): `None` or empty input yields `None`, otherwise `siglaCore`. -/
def normalizeSigla (raw : Option String) : Option String :=
  match raw with
  | Option.none => none
  | Option.some s => if s = "" then none else some (siglaCore s)


/-- A Python value as it occurs in the JSON/DB rows handled by the service:
`None`, a string, an integer, or some other (truthy) object represented
opaquely by a tag. -/
inductive PyVal where
  | none
  | str (s : String)
  | int (n : Int)
  | obj (tag : Nat)
deriving DecidableEq

/-- A row/record: a Python dict modelled as an association list with the
keys in insertion order (Python dicts preserve insertion order). -/
abbrev Record := List (String × PyVal)

/-- Python `r.get(k)`: the value of the first entry with key `k`, if any. -/
def dictGet : Record → String → Option PyVal
  | [], _ => Option.none
  | (k', v) :: rest, k => if k' = k then some v else dictGet rest k

/-- Python item assignment `r[k] = v`: replace the value at `k` in place if present, else append. -/
def dictSet : Record → String → PyVal → Record
  | [], k, v => [(k, v)]
  | (k', v') :: rest, k, v =>
    if k' = k then (k, v) :: rest else (k', v') :: dictSet rest k v

/-- Python `r.get(k)` defaulting: absent keys read as `None`. -/
def od (o : Option PyVal) : PyVal := o.getD PyVal.none

/-- Python truthiness for the modelled values: `None`, `""` and `0` are
falsy; opaque objects are used to model truthy non-text values. -/
def pyTruthy : PyVal → Bool
  | PyVal.none => false
  | PyVal.str s => s ≠ ""
  | PyVal.int n => n ≠ 0
  | PyVal.obj _ => true

/-- Python `a or b`. -/
def pyOr (a b : PyVal) : PyVal := if pyTruthy a then a else b

/-- The field-selection idiom `r.get(k1) or r.get(k2) or ""` of
`normalize_record` (etl_normalize.py lines 26 and 44). -/
def fieldOr2 (rec : Record) (k1 k2 : String) : PyVal :=
  pyOr (od (dictGet rec k1)) (pyOr (od (dictGet rec k2)) (PyVal.str ""))

/-- An `Option String` stored back into a record field (Python `None` /
`str`). -/
def ov : Option String → PyVal
  | Option.none => PyVal.none
  | Option.some s => PyVal.str s

/-- Model of `_normalize_tx_sigla(rec)` (etl_normalize.py lines 25-42): sets
`tx_sigla_norm` to `None` for a falsy source field, to `siglaCore` of a truthy
string, and raises (`AttributeError` from `.strip()`) on a truthy non-string
value. -/
def siglaStep (rec : Record) : Except Unit Record :=
  let v := fieldOr2 rec "TX_SIGLA" "tx_sigla"
  if pyTruthy v then
    match v with
    | PyVal.str s => Except.ok (dictSet rec "tx_sigla_norm" (PyVal.str (siglaCore s)))
    | _ => Except.error ()
  else Except.ok (dictSet rec "tx_sigla_norm" PyVal.none)

/-- The `tx_insumo_norm` part of `normalize_record` (etl_normalize.py lines
44-95), run on the record already updated by `siglaStep`. -/
def insumoStep (env : ReEnv) (maps : List Mapping) (rec : Record) : Except Unit Record :=
  let v := fieldOr2 rec "TX_INSUMO" "tx_insumo"
  if pyTruthy v then
    match v with
    | PyVal.str s => Except.ok (dictSet rec "tx_insumo_norm" (ov (insumoCore env maps s)))
    | _ => Except.error ()
  else Except.ok (dictSet rec "tx_insumo_norm" PyVal.none)

/-- Model of `normalize_record(rec, mappings)` (etl_normalize.py lines 23-95): the
sigla step followed by the insumo step on the updated record.  The `Except`
layer records the only way the function can raise: a truthy non-string value
in one of the source text fields. -/
def normalizeRecordE (env : ReEnv) (maps : List Mapping) (rec : Record) : Except Unit Record :=
  (siglaStep rec).bind (insumoStep env maps)

/-- The environment in which every pattern compiles and the patterns that did
not compile in `env` are interpreted as case-insensitive substring tests —
i.e. the net matching semantics produced by the `except re.error` fallback. -/
def substEnv (env : ReEnv) : ReEnv where
  compileOk := fun _ => true
  search := fun p t => if env.compileOk p then env.search p t else substrCI p t

/-- The source text fields of a record are text-like (string or falsy), as
the Raw Row data model prescribes. -/
def textOk (rec : Record) : Prop :=
  (pyTruthy (fieldOr2 rec "TX_SIGLA" "tx_sigla") = false ∨
    ∃ s, fieldOr2 rec "TX_SIGLA" "tx_sigla" = PyVal.str s) ∧
  (pyTruthy (fieldOr2 rec "TX_INSUMO" "tx_insumo") = false ∨
    ∃ s, fieldOr2 rec "TX_INSUMO" "tx_insumo" = PyVal.str s)

/-- Valid decimal digit run for Python's `int(str)`: digits with single
underscores strictly between digits.  `digitsUndAux` scans after a digit has
been seen. -/
def digitsUndAux : List Char → Bool
  | [] => true
  | '_' :: c :: rest => c.isDigit && digitsUndAux rest
  | c :: rest => c.isDigit && digitsUndAux rest

/-- Non-empty digit run (with embedded single underscores) for `int(str)`. -/
def digitsUnd : List Char → Bool
  | [] => false
  | c :: rest => c.isDigit && digitsUndAux rest

/-- Numeric value of an (underscore-free) ASCII digit run. -/
def digitsVal (l : List Char) : Nat :=
  List.foldl (fun acc c => acc * 10 + (c.toNat - 48)) 0 l

/-- Python `int(s)` on a string: optional surrounding whitespace, optional
sign, then a digit run (ASCII digits modelled); anything else raises
`ValueError`. -/
def pyIntOfStr (s : String) : Except Unit Int :=
  match stripL s.data with
  | '+' :: rest =>
    if digitsUnd rest then Except.ok (Int.ofNat (digitsVal (rest.filter (fun c => c ≠ '_'))))
    else Except.error ()
  | '-' :: rest =>
    if digitsUnd rest then Except.ok (-(Int.ofNat (digitsVal (rest.filter (fun c => c ≠ '_')))))
    else Except.error ()
  | l =>
    if digitsUnd l then Except.ok (Int.ofNat (digitsVal (l.filter (fun c => c ≠ '_'))))
    else Except.error ()

/-- Python `int(v)` on the modelled values: integers pass through, strings
are parsed, everything else raises (`TypeError`). -/
def pyIntConv : PyVal → Except Unit Int
  | PyVal.int n => Except.ok n
  | PyVal.str s => pyIntOfStr s
  | _ => Except.error ()

/-- The per-row quantity conversion `int(r.get("QTDE") or 0)` of the
aggregation layer (app.py lines 286 and 314). -/
def qtdeInt (r : Record) : Except Unit Int :=
  pyIntConv (pyOr (od (dictGet r "QTDE")) (PyVal.int 0))

/-- Model of `total = sum(int(r.get("QTDE") or 0) for r in matched)` (app.py line
286): the generator raises at the first row whose quantity does not
convert. -/
def overviewTotal (matched : List Record) : Except Unit Int :=
  List.foldlM (fun acc r => (qtdeInt r).map (fun q => acc + q)) 0 matched

/-- Zero-padded decimal formatting to width `w`. -/
def padZeros (w : Nat) (s : String) : String :=
  if s.length < w then String.mk (List.replicate (w - s.length) '0') ++ s else s

/-- Width-4 / width-2 zero-padded decimal formatting of a signed integer, as in the f-string of the bucket key. -/
def fmtPad (w : Nat) (a : Int) : String :=
  if a < 0 then "-" ++ padZeros (w - 1) (toString a.natAbs)
  else padZeros w (toString a.natAbs)

/-- The time bucket key of a row (app.py lines 309-311): the year converted
by int of the "ANO" field (defaulting falsy values to 0) zero-padded to width 4, a hyphen, then the month
converted likewise zero-padded to width 2. -/
def anoMesKey (r : Record) : Except Unit String := do
  let a ← pyIntConv (pyOr (od (dictGet r "ANO")) (PyVal.int 0))
  let m ← pyIntConv (pyOr (od (dictGet r "MES")) (PyVal.int 0))
  pure (fmtPad 4 a ++ "-" ++ fmtPad 2 m)

/-- Model of the bucket update (setdefault to 0, then add the quantity) on an
insertion-ordered dict. -/
def bumpBucket : List (String × Int) → String → Int → List (String × Int)
  | [], k, q => [(k, q)]
  | (k', v) :: rest, k, q =>
    if k' = k then (k', v + q) :: rest else (k', v) :: bumpBucket rest k q

/-- The timeseries bucket fold (app.py lines 307-314) starting from the
buckets `bs`. -/
def tsFold (bs : List (String × Int)) (rows : List Record) : Except Unit (List (String × Int)) :=
  List.foldlM (fun acc r => do
    let k ← anoMesKey r
    let q ← qtdeInt r
    pure (bumpBucket acc k q)) bs rows

/-- The timeseries buckets of a matched row set. -/
def timeseriesBuckets (rows : List Record) : Except Unit (List (String × Int)) :=
  tsFold [] rows

/-! ### Concrete regex environments and fixtures

Each concrete `ReEnv` below is consistent with Python's `re` on every
pattern/text pair it is actually consulted on in the proofs that use it. -/

/-- Environment for rule sets whose patterns are plain literals: every
pattern compiles and `re.search(p, t, re.IGNORECASE)` on a literal pattern is
exactly a case-insensitive substring test. -/
def litEnv : ReEnv where
  compileOk := fun _ => true
  search := fun p t => substrCI p t

/-- Environment used with an empty rule set (it is never consulted). -/
def trivEnv : ReEnv where
  compileOk := fun _ => true
  search := fun _ _ => false

/-- Environment for the single anchored pattern `^FEBRE`:
`re.search("^FEBRE", t, re.IGNORECASE)` succeeds exactly when `t` starts with
`FEBRE` (case-insensitively). -/
def envFebre : ReEnv where
  compileOk := fun _ => true
  search := fun p t => p = "^FEBRE" && "FEBRE".data.isPrefixOf (upperL t.data)

/-- Rule set with one anchored rule for the diluent-pass scenario. -/
def mapsFebre : List Mapping := [⟨"^FEBRE", some "Febre Amarela", some 10⟩]

/-- Environment for the single pattern `^$`: `re.search("^$", t)` succeeds on
the empty string and fails on the non-empty, newline-free texts it is
consulted on here. -/
def envEmptyPat : ReEnv where
  compileOk := fun _ => true
  search := fun p t => p = "^$" && t = ""

/-- Rule set with one rule whose regex matches exactly the empty string. -/
def mapsEmptyPat : List Mapping := [⟨"^$", some "Empty", some 10⟩]

/-- Rules for the priority witness: an unsorted store where only the
priority-10 and priority-20 rules match `"FOO BAR"`. -/
def mapFoo : Mapping := ⟨"FOO", some "L1", some 10⟩

def mapBar : Mapping := ⟨"BAR", some "L2", some 20⟩

def mapZed : Mapping := ⟨"ZZZ", some "LZ", some 5⟩

def mapsPrio : List Mapping := [mapBar, mapFoo, mapZed]

/-- A row whose quantity field is a non-numeric string. -/
def rowBadQtde : Record :=
  [("QTDE", PyVal.str "N/A"), ("ANO", PyVal.int 2021), ("MES", PyVal.int 5)]

/-- A row with no quantity field at all. -/
def rowNoQtde : Record := [("ANO", PyVal.int 2021), ("MES", PyVal.int 5)]

/-- A row with a numeric quantity. -/
def rowQtde7 : Record :=
  [("QTDE", PyVal.int 7), ("ANO", PyVal.int 2021), ("MES", PyVal.int 5)]

/-- A well-formed raw row for the record-level witnesses. -/
def rowSesPr : Record :=
  [("TX_SIGLA", PyVal.str "SES-PR"), ("TX_INSUMO", PyVal.str "SARS-COV2 - PFIZER"),
   ("QTDE", PyVal.int 10)]

/-- Environment for a rule set containing the invalid pattern `"FOO ("`
(unbalanced parenthesis): `re.compile` fails on it, every other pattern here
compiles; `search` is never consulted on the invalid pattern. -/
def envInvalid : ReEnv where
  compileOk := fun p => !(p = "FOO (")
  search := fun p t => substrCI p t

/-- Rule set containing only the invalid-regex rule. -/
def mapsInvalid : List Mapping := [⟨"FOO (", some "LFOO", some 10⟩]

/-- The normalized form of `rowSesPr` under an empty rule store: the sigla
becomes "PR" and the insumo resolves via the disease-keyword fallback. -/
def rowSesPrOut : Record :=
  [("TX_SIGLA", PyVal.str "SES-PR"), ("TX_INSUMO", PyVal.str "SARS-COV2 - PFIZER"),
   ("QTDE", PyVal.int 10), ("tx_sigla_norm", PyVal.str "PR"),
   ("tx_insumo_norm", PyVal.str "Covid-19")]

/-! ### Helper lemmas -/

theorem dictGet_dictSet_self (r : Record) (k : String) (v : PyVal) :
    dictGet (dictSet r k v) k = some v := by
  induction r with
  | nil => simp [dictSet, dictGet]
  | cons e rest ih =>
    obtain ⟨k1, v1⟩ := e
    by_cases hk : k1 = k
    · simp [dictSet, hk, dictGet]
    · simp [dictSet, hk, dictGet, ih]

theorem dictGet_dictSet_ne (r : Record) (k : String) (v : PyVal) (k2 : String)
    (h : k2 ≠ k) : dictGet (dictSet r k v) k2 = dictGet r k2 := by
  induction r with
  | nil => simp [dictSet, dictGet, Ne.symm h]
  | cons e rest ih =>
    obtain ⟨k1, v1⟩ := e
    by_cases hk : k1 = k
    · subst hk
      simp [dictSet, dictGet, Ne.symm h]
    · simp [dictSet, hk, dictGet, ih]

theorem fieldOr2_dictSet_ne (rec : Record) (k : String) (v : PyVal) (k1 k2 : String)
    (h1 : k1 ≠ k) (h2 : k2 ≠ k) :
    fieldOr2 (dictSet rec k v) k1 k2 = fieldOr2 rec k1 k2 := by
  unfold fieldOr2
  rw [dictGet_dictSet_ne rec k v k1 h1, dictGet_dictSet_ne rec k v k2 h2]

theorem firstMatch_split (env : ReEnv) (maps : List Mapping) (tx : String) (f : Mapping)
    (h : firstMatch env maps tx = some f) :
    ∃ l1 l2, maps = l1 ++ f :: l2 ∧ (∀ m ∈ l1, tryMatch env m.pattern tx = false) ∧
      tryMatch env f.pattern tx = true := by
  induction maps with
  | nil => simp [firstMatch] at h
  | cons m rest ih =>
    rw [firstMatch] at h
    by_cases hm : tryMatch env m.pattern tx = true
    · rw [if_pos hm] at h
      cases h
      exact ⟨[], rest, rfl, by simp, hm⟩
    · rw [if_neg hm] at h
      obtain ⟨l1, l2, heq, hno, hf⟩ := ih h
      refine ⟨m :: l1, l2, by rw [heq]; rfl, ?_, hf⟩
      intro x hx
      rcases List.mem_cons.mp hx with hx | hx
      · subst hx
        cases hcase : tryMatch env x.pattern tx
        · rfl
        · exact absurd hcase hm
      · exact hno x hx

theorem firstMatch_mem (env : ReEnv) (maps : List Mapping) (tx : String) (f : Mapping)
    (h : firstMatch env maps tx = some f) :
    f ∈ maps ∧ tryMatch env f.pattern tx = true := by
  obtain ⟨l1, l2, heq, _, hf⟩ := firstMatch_split env maps tx f h
  exact ⟨by rw [heq]; simp, hf⟩

theorem firstMatch_isSome (env : ReEnv) (maps : List Mapping) (tx : String) (m : Mapping)
    (hm : m ∈ maps) (hmatch : tryMatch env m.pattern tx = true) :
    ∃ f, firstMatch env maps tx = some f := by
  induction maps with
  | nil => simp at hm
  | cons a rest ih =>
    rw [firstMatch]
    by_cases ha : tryMatch env a.pattern tx = true
    · exact ⟨a, by rw [if_pos ha]⟩
    · rw [if_neg ha]
      rcases List.mem_cons.mp hm with hv | hv
    -- if m = a the match hypothesis contradicts ha
      · subst hv
        exact absurd hmatch ha
      · exact ih hv

theorem tryMatch_substEnv (env : ReEnv) (pat tx : String) :
    tryMatch (substEnv env) pat tx = tryMatch env pat tx := by
  unfold tryMatch substEnv
  by_cases h : env.compileOk pat = true
  · simp [h]
  · simp [h]

theorem firstMatch_substEnv (env : ReEnv) (maps : List Mapping) (tx : String) :
    firstMatch (substEnv env) maps tx = firstMatch env maps tx := by
  induction maps with
  | nil => rfl
  | cons m rest ih => rw [firstMatch, firstMatch, tryMatch_substEnv, ih]

theorem directPass_substEnv (env : ReEnv) (maps : List Mapping) (tx : String) :
    directPass (substEnv env) maps tx = directPass env maps tx := by
  unfold directPass
  rw [firstMatch_substEnv]

theorem diluentPass_substEnv (env : ReEnv) (maps : List Mapping) (tx : String) :
    diluentPass (substEnv env) maps tx = diluentPass env maps tx := by
  unfold diluentPass
  simp only [firstMatch_substEnv]

theorem insumoCore_substEnv (env : ReEnv) (maps : List Mapping) (tx : String) :
    insumoCore (substEnv env) maps tx = insumoCore env maps tx := by
  unfold insumoCore
  simp only [directPass_substEnv, diluentPass_substEnv]

theorem siglaStep_ok_shape (rec r1 : Record) (h : siglaStep rec = Except.ok r1) :
    ∃ w, r1 = dictSet rec "tx_sigla_norm" w ∧
      (w = PyVal.none ∨ ∃ s, w = PyVal.str s) := by
  unfold siglaStep at h
  by_cases ht : pyTruthy (fieldOr2 rec "TX_SIGLA" "tx_sigla") = true
  · rw [if_pos ht] at h
    cases hv : fieldOr2 rec "TX_SIGLA" "tx_sigla" with
    | str s =>
      rw [hv] at h
      cases h
      exact ⟨PyVal.str (siglaCore s), rfl, Or.inr ⟨_, rfl⟩⟩
    | none => rw [hv] at h; cases h
    | int n => rw [hv] at h; cases h
    | obj t => rw [hv] at h; cases h
  · rw [if_neg ht] at h
    cases h
    exact ⟨PyVal.none, rfl, Or.inl rfl⟩

theorem insumoStep_ok_shape (env : ReEnv) (maps : List Mapping) (rec r1 : Record)
    (h : insumoStep env maps rec = Except.ok r1) :
    ∃ w, r1 = dictSet rec "tx_insumo_norm" w ∧
      (w = PyVal.none ∨ ∃ s, w = PyVal.str s) := by
  unfold insumoStep at h
  by_cases ht : pyTruthy (fieldOr2 rec "TX_INSUMO" "tx_insumo") = true
  · rw [if_pos ht] at h
    cases hv : fieldOr2 rec "TX_INSUMO" "tx_insumo" with
    | str s =>
      rw [hv] at h
      cases h
      refine ⟨ov (insumoCore env maps s), rfl, ?_⟩
      cases hc : insumoCore env maps s with
      | none => exact Or.inl (by simp [ov, hc])
      | some t => exact Or.inr ⟨t, by simp [ov, hc]⟩
    | none => rw [hv] at h; cases h
    | int n => rw [hv] at h; cases h
    | obj t => rw [hv] at h; cases h
  · rw [if_neg ht] at h
    cases h
    exact ⟨PyVal.none, rfl, Or.inl rfl⟩

theorem normalizeRecordE_ok_shape (env : ReEnv) (maps : List Mapping) (rec out : Record)
    (h : normalizeRecordE env maps rec = Except.ok out) :
    ∃ w1 w2, out = dictSet (dictSet rec "tx_sigla_norm" w1) "tx_insumo_norm" w2 ∧
      (w1 = PyVal.none ∨ ∃ s, w1 = PyVal.str s) ∧
      (w2 = PyVal.none ∨ ∃ s, w2 = PyVal.str s) := by
  unfold normalizeRecordE at h
  cases hs : siglaStep rec with
  | error e => rw [hs] at h; cases h
  | ok r1 =>
    rw [hs] at h
    obtain ⟨w1, hr1, hw1⟩ := siglaStep_ok_shape rec r1 hs
    obtain ⟨w2, hout, hw2⟩ := insumoStep_ok_shape env maps r1 out h
    exact ⟨w1, w2, by rw [hout, hr1], hw1, hw2⟩

theorem siglaStep_textLike_ok (rec : Record)
    (h : pyTruthy (fieldOr2 rec "TX_SIGLA" "tx_sigla") = false ∨
      ∃ s, fieldOr2 rec "TX_SIGLA" "tx_sigla" = PyVal.str s) :
    ∃ r1, siglaStep rec = Except.ok r1 := by
  unfold siglaStep
  rcases h with h | ⟨s, hs⟩
  · rw [if_neg (by rw [h]; exact Bool.false_ne_true)]
    exact ⟨_, rfl⟩
  · rw [hs]
    by_cases ht : pyTruthy (PyVal.str s) = true
    · rw [if_pos ht]
      exact ⟨_, rfl⟩
    · rw [if_neg ht]
      exact ⟨_, rfl⟩

theorem insumoStep_textLike_ok (env : ReEnv) (maps : List Mapping) (rec : Record)
    (h : pyTruthy (fieldOr2 rec "TX_INSUMO" "tx_insumo") = false ∨
      ∃ s, fieldOr2 rec "TX_INSUMO" "tx_insumo" = PyVal.str s) :
    ∃ r1, insumoStep env maps rec = Except.ok r1 := by
  unfold insumoStep
  rcases h with h | ⟨s, hs⟩
  · rw [if_neg (by rw [h]; exact Bool.false_ne_true)]
    exact ⟨_, rfl⟩
  · rw [hs]
    by_cases ht : pyTruthy (PyVal.str s) = true
    · rw [if_pos ht]
      exact ⟨_, rfl⟩
    · rw [if_neg ht]
      exact ⟨_, rfl⟩

theorem orderedInsert_filter_pos (a : Mapping) (p : Int) (ha : priGet a = p) :
    ∀ l : List Mapping,
      (List.orderedInsert keyLE a l).filter (fun m => decide (priGet m = p)) =
        a :: l.filter (fun m => decide (priGet m = p)) := by
  intro l
  induction l with
  | nil => simp [List.orderedInsert, ha]
  | cons b t ih =>
    rw [List.orderedInsert]
    by_cases hab : keyLE a b
    · rw [if_pos hab]
      simp [List.filter_cons, ha]
    · rw [if_neg hab]
      have hbp : ¬(priGet b = p) := by
        unfold keyLE at hab
        omega
      simp only [List.filter_cons, ih]
      simp [hbp]

theorem orderedInsert_filter_neg (a : Mapping) (p : Int) (ha : ¬(priGet a = p)) :
    ∀ l : List Mapping,
      (List.orderedInsert keyLE a l).filter (fun m => decide (priGet m = p)) =
        l.filter (fun m => decide (priGet m = p)) := by
  intro l
  induction l with
  | nil => simp [List.orderedInsert, ha]
  | cons b t ih =>
    rw [List.orderedInsert]
    by_cases hab : keyLE a b
    · rw [if_pos hab]
      simp [List.filter_cons, ha]
    · rw [if_neg hab]
      simp only [List.filter_cons, ih]

theorem loadMappings_filter_stable (l : List Mapping) (p : Int) :
    (loadMappings l).filter (fun m => decide (priGet m = p)) =
      l.filter (fun m => decide (priGet m = p)) := by
  unfold loadMappings
  induction l with
  | nil => rfl
  | cons a t ih =>
    rw [List.insertionSort]
    by_cases ha : priGet a = p
    · rw [orderedInsert_filter_pos a p ha, ih]
      simp [List.filter_cons, ha]
    · rw [orderedInsert_filter_neg a p ha, ih]
      simp [List.filter_cons, ha]

/-- C6: normalize_sigla strips a leading "SES" organizational prefix
(followed by zero or more of hyphen, whitespace, dot, slash) from the
trimmed, uppercased input and returns the trailing two-letter code when the
remainder ends with two uppercase letters, else the first two characters (or
the whole string if shorter); in particular the claimed values
normalize_sigla("SES-PR") = "PR", normalize_sigla("SES PR") = "PR",
normalize_sigla("") = null, normalize_sigla(null) = null,
normalize_sigla("XYZPR") = "PR", normalize_sigla("A") = "A" all hold (and the
first-two-characters fallback gives normalize_sigla("AB1") = "AB"). -/
theorem C6_normalize_sigla_cases :
    normalizeSigla (some "SES-PR") = some "PR" ∧
    normalizeSigla (some "SES PR") = some "PR" ∧
    normalizeSigla (some "") = none ∧
    normalizeSigla none = none ∧
    normalizeSigla (some "XYZPR") = some "PR" ∧
    normalizeSigla (some "A") = some "A" ∧
    normalizeSigla (some "AB1") = some "AB" := by
  refine ⟨?_, ?_, ?_, ?_, ?_, ?_, ?_⟩ <;> decide

/-- C7: the Rule Store load returns the rules sorted ascending by priority
(missing priorities default to 100) by a stable sort: it is a permutation of
the input, sorted by `keyLE`, preserving the relative order of equal
priorities (the filter at any fixed priority is unchanged); and on input
priorities [50, 10, default=100, 10] the loaded order is [10, 10, 50, 100]
with the two priority-10 rules in their original relative order. -/
theorem C7_rule_store_sorted_stable :
    (∀ l : List Mapping, List.Sorted keyLE (loadMappings l)) ∧
    (∀ l : List Mapping, List.Perm (loadMappings l) l) ∧
    (∀ (l : List Mapping) (p : Int),
      (loadMappings l).filter (fun m => decide (priGet m = p)) =
        l.filter (fun m => decide (priGet m = p))) ∧
    loadMappings
        [⟨"A", some "a", some 50⟩, ⟨"B", some "b", some 10⟩,
         ⟨"C", some "c", none⟩, ⟨"D", some "d", some 10⟩] =
      [⟨"B", some "b", some 10⟩, ⟨"D", some "d", some 10⟩,
       ⟨"A", some "a", some 50⟩, ⟨"C", some "c", none⟩] :=
  ⟨fun l => List.sorted_insertionSort keyLE l,
   fun l => List.perm_insertionSort keyLE l,
   loadMappings_filter_stable,
   by decide⟩

/-- C1: in the direct pass, among rules that match the input the one with
the strictly smallest priority wins: if r1 and r2 both match tx with
priority(r1) < priority(r2), and r1 has strictly minimal priority among all
matching rules of the store, then the direct pass over the loaded (priority
sorted) store returns r1's label — rules are iterated in sorted order and
the first matching rule returns. -/
theorem C1_direct_pass_priority_wins (env : ReEnv) (l : List Mapping) (tx : String)
    (r1 r2 : Mapping) (h1 : r1 ∈ l) (h2 : r2 ∈ l)
    (hm1 : tryMatch env r1.pattern tx = true) (hm2 : tryMatch env r2.pattern tx = true)
    (hp : priGet r1 < priGet r2)
    (hmin : ∀ r ∈ l, tryMatch env r.pattern tx = true → r ≠ r1 → priGet r1 < priGet r) :
    directPass env (loadMappings l) tx = some r1.vacina_normalizada := by
  have hperm : List.Perm (loadMappings l) l := List.perm_insertionSort keyLE l
  have hsorted : List.Sorted keyLE (loadMappings l) := List.sorted_insertionSort keyLE l
  have hr1s : r1 ∈ loadMappings l := hperm.mem_iff.mpr h1
  obtain ⟨f, hf⟩ := firstMatch_isSome env (loadMappings l) tx r1 hr1s hm1
  obtain ⟨l1, l2, heq, hno, hfm⟩ := firstMatch_split env (loadMappings l) tx f hf
  have hfr1 : f = r1 := by
    by_contra hne
    have hfl : f ∈ l := hperm.mem_iff.mp (by rw [heq]; simp)
    have hlt : priGet r1 < priGet f := hmin f hfl hfm hne
    have hr1' : r1 ∈ l1 ++ f :: l2 := by rw [← heq]; exact hr1s
    rcases List.mem_append.mp hr1' with hc | hc
    · exact absurd (hno r1 hc) (by simp [hm1])
    · rcases List.mem_cons.mp hc with hc | hc
      · exact hne hc.symm
      · have hsorted' : List.Pairwise keyLE (l1 ++ f :: l2) := heq ▸ hsorted
        have hpair := (List.pairwise_append.mp hsorted').2.1
        have hle : keyLE f r1 := List.rel_of_pairwise_cons hpair hc
        unfold keyLE at hle
        omega
  unfold directPass
  rw [hf, hfr1]
  rfl

/-- Witness for C1 at a concrete store: in the unsorted store
[BAR@20, FOO@10, ZZZ@5] only FOO and BAR match "FOO BAR", FOO has the
smaller priority, and the direct pass over the loaded store returns FOO's
label "L1". -/
theorem C1_direct_pass_priority_wins_wit :
    (mapFoo ∈ mapsPrio ∧ mapBar ∈ mapsPrio ∧
      tryMatch litEnv mapFoo.pattern "FOO BAR" = true ∧
      tryMatch litEnv mapBar.pattern "FOO BAR" = true ∧
      priGet mapFoo < priGet mapBar) ∧
    directPass litEnv (loadMappings mapsPrio) "FOO BAR" = some (some "L1") :=
  ⟨⟨by decide, by decide, by decide, by decide, by decide⟩,
    C1_direct_pass_priority_wins litEnv mapsPrio "FOO BAR" mapFoo mapBar
      (by decide) (by decide) (by decide) (by decide) (by decide) (by decide)⟩

/-- C5: for every input on which neither the direct pass nor the diluent
pass produced a label, if the input matches the fallback regex
`SARS[- ]?COV2|COVID[- ]?19` (one of the six hyphen/space variants occurs,
case-insensitively), normalize_insumo returns the fixed canonical label
"Covid-19". -/
theorem C5_disease_keyword_fallback (env : ReEnv) (maps : List Mapping) (tx : String)
    (hd : directPass env maps tx = none) (hdl : diluentPass env maps tx = none)
    (hds : diseaseMatch tx = true) :
    normalizeInsumo env maps (some tx) = some "Covid-19" := by
  have htx : ¬(tx = "") := by
    intro h
    subst h
    exact absurd hds (by decide)
  show (if tx = "" then none else insumoCore env maps tx) = some "Covid-19"
  rw [if_neg htx]
  unfold insumoCore
  rw [hd, hdl]
  simp [hds]

/-- Witness for C5: normalize_insumo("SARS-COV2 - PFIZER/BIONTECH") with an
empty rule set (so no earlier rule matches) returns "Covid-19". -/
theorem C5_disease_keyword_fallback_wit :
    (directPass trivEnv [] "SARS-COV2 - PFIZER/BIONTECH" = none ∧
      diluentPass trivEnv [] "SARS-COV2 - PFIZER/BIONTECH" = none ∧
      diseaseMatch "SARS-COV2 - PFIZER/BIONTECH" = true) ∧
    normalizeInsumo trivEnv [] (some "SARS-COV2 - PFIZER/BIONTECH") = some "Covid-19" :=
  ⟨⟨by decide, by decide, by decide⟩,
    C5_disease_keyword_fallback trivEnv [] "SARS-COV2 - PFIZER/BIONTECH"
      (by decide) (by decide) (by decide)⟩

/-- C2: normalize_insumo("DILUENTE PARA VACINA CONTRA FEBRE AMARELA"), for a
store containing a rule matching "FEBRE AMARELA" (and whose rules matching
that candidate all carry the label "Febre Amarela"), returns "Febre Amarela"
via the diluent pass — the text after VACINA CONTRA is extracted, cleaned and
re-matched — even though the direct pass on the full string matches no
rule. -/
theorem C2_diluent_pass_febre_amarela (env : ReEnv) (maps : List Mapping) (r : Mapping)
    (h1 : r ∈ maps) (hm : tryMatch env r.pattern "FEBRE AMARELA" = true)
    (hall : ∀ m ∈ maps, tryMatch env m.pattern "FEBRE AMARELA" = true →
      m.vacina_normalizada = some "Febre Amarela")
    (hd : directPass env maps "DILUENTE PARA VACINA CONTRA FEBRE AMARELA" = none) :
    normalizeInsumo env maps (some "DILUENTE PARA VACINA CONTRA FEBRE AMARELA") =
      some "Febre Amarela" := by
  have hdil : diluentPass env maps "DILUENTE PARA VACINA CONTRA FEBRE AMARELA" =
      (firstMatch env maps "FEBRE AMARELA").map (fun m => m.vacina_normalizada) := rfl
  obtain ⟨f, hf⟩ := firstMatch_isSome env maps "FEBRE AMARELA" r h1 hm
  obtain ⟨hfmem, hfmatch⟩ := firstMatch_mem env maps "FEBRE AMARELA" f hf
  have hlab := hall f hfmem hfmatch
  show (if "DILUENTE PARA VACINA CONTRA FEBRE AMARELA" = "" then none
    else insumoCore env maps "DILUENTE PARA VACINA CONTRA FEBRE AMARELA") =
      some "Febre Amarela"
  rw [if_neg (by decide : ¬("DILUENTE PARA VACINA CONTRA FEBRE AMARELA" = ""))]
  unfold insumoCore
  rw [hd, hdil, hf]
  simp [hlab]

/-- Witness for C2: with the single anchored rule `^FEBRE` → "Febre Amarela",
the direct pass on the full diluent string fails but the diluent pass
extracts "FEBRE AMARELA" and matches. -/
theorem C2_diluent_pass_febre_amarela_wit :
    (tryMatch envFebre "^FEBRE" "FEBRE AMARELA" = true ∧
      directPass envFebre mapsFebre "DILUENTE PARA VACINA CONTRA FEBRE AMARELA" = none) ∧
    normalizeInsumo envFebre mapsFebre (some "DILUENTE PARA VACINA CONTRA FEBRE AMARELA") =
      some "Febre Amarela" :=
  ⟨⟨by decide, by decide⟩,
    C2_diluent_pass_febre_amarela envFebre mapsFebre ⟨"^FEBRE", some "Febre Amarela", some 10⟩
      (by decide) (by decide) (by decide) (by decide)⟩

/-- C3 (amended): when the extraction step of the diluent pass yields an
empty candidate, pass 3 contributes no result and processing falls through
to the disease-keyword pass; but when a non-empty extracted candidate is
emptied by the cleaning step, the rule loop still runs on the empty
candidate text, and a rule whose pattern matches the empty string does
contribute a result (second conjunct, concrete). -/
theorem C3_diluent_empty_candidate :
    (∀ (env : ReEnv) (maps : List Mapping) (tx : String),
      extractCandidate (upperL tx.data) = [] →
      diluentPass env maps tx = none ∧
      (directPass env maps tx = none →
        insumoCore env maps tx = (if diseaseMatch tx then some "Covid-19" else none))) ∧
    (extractCandidate (upperL "DILUENTE VACINA (123)".data) ≠ [] ∧
      cleanL (extractCandidate (upperL "DILUENTE VACINA (123)".data)) = [] ∧
      diluentPass envEmptyPat mapsEmptyPat "DILUENTE VACINA (123)" = some (some "Empty")) := by
  constructor
  · intro env maps tx hext
    have hdl : diluentPass env maps tx = none := by
      simp [diluentPass, hext]
    refine ⟨hdl, fun hd => ?_⟩
    unfold insumoCore
    rw [hd, hdl]
  · exact ⟨by decide, by decide, by decide⟩

/-- Witness for C3 at a concrete input whose extracted candidate is empty:
"DILUENTE VACINA" extracts nothing after VACINA and the diluent pass
contributes no result. -/
theorem C3_diluent_empty_candidate_wit :
    extractCandidate (upperL "DILUENTE VACINA".data) = [] ∧
    diluentPass trivEnv [] "DILUENTE VACINA" = none :=
  ⟨by decide, (C3_diluent_empty_candidate.1 trivEnv [] "DILUENTE VACINA" (by decide)).1⟩

/-- C3 counterexample: for the store [`^$` → "Empty"] and input
"DILUENTE VACINA (123)" the direct pass matches no rule, the extracted
candidate "(123)" is non-empty, the cleaning step empties it — and pass 3
still returns "Empty": the emptied candidate IS matched against the rules
instead of falling through (the disease pass would have produced no label
here). -/
theorem C3_diluent_empty_candidate_cex :
    directPass envEmptyPat mapsEmptyPat "DILUENTE VACINA (123)" = none ∧
    extractCandidate (upperL "DILUENTE VACINA (123)".data) = "(123)".data ∧
    cleanL (extractCandidate (upperL "DILUENTE VACINA (123)".data)) = [] ∧
    insumoCore envEmptyPat mapsEmptyPat "DILUENTE VACINA (123)" = some "Empty" ∧
    diseaseMatch "DILUENTE VACINA (123)" = false := by
  refine ⟨?_, ?_, ?_, ?_, ?_⟩ <;> decide

/-- C4: a rule whose pattern is not a valid regular expression never aborts
normalization: the run is unchanged when every non-compiling pattern is
reinterpreted as an (always compiling) case-insensitive substring test —
which is exactly what the `except re.error` branches of both the direct pass
and the diluent re-match pass do — and normalize_record returns a record
(raises nothing) for every rule set and every row whose text fields are
text-like. -/
theorem C4_invalid_regex_degrades (env : ReEnv) (maps : List Mapping) (rec : Record)
    (tx : String) (h : textOk rec) :
    (∃ out, normalizeRecordE env maps rec = Except.ok out) ∧
    insumoCore env maps tx = insumoCore (substEnv env) maps tx := by
  constructor
  · obtain ⟨r1, hr1⟩ := siglaStep_textLike_ok rec h.1
    obtain ⟨w, hshape, _⟩ := siglaStep_ok_shape rec r1 hr1
    have hfield : fieldOr2 r1 "TX_INSUMO" "tx_insumo" =
        fieldOr2 rec "TX_INSUMO" "tx_insumo" := by
      rw [hshape]
      exact fieldOr2_dictSet_ne rec _ w "TX_INSUMO" "tx_insumo" (by decide) (by decide)
    obtain ⟨out, hout⟩ := insumoStep_textLike_ok env maps r1 (by rw [hfield]; exact h.2)
    refine ⟨out, ?_⟩
    unfold normalizeRecordE
    rw [hr1]
    exact hout
  · exact (insumoCore_substEnv env maps tx).symm

/-- Witness for C4 with a store whose only rule has the invalid pattern
`"FOO ("`: normalization of a well-formed row succeeds, and the invalid rule
behaves as a substring test (here it matches `"xx foo (yy"` by containment,
so the insumo label is "LFOO" under both readings). -/
theorem C4_invalid_regex_degrades_wit :
    textOk rowSesPr ∧
    (∃ out, normalizeRecordE envInvalid mapsInvalid rowSesPr = Except.ok out) ∧
    insumoCore envInvalid mapsInvalid "xx foo (yy" =
      insumoCore (substEnv envInvalid) mapsInvalid "xx foo (yy" :=
  ⟨⟨Or.inr ⟨"SES-PR", by decide⟩, Or.inr ⟨"SARS-COV2 - PFIZER", by decide⟩⟩,
    C4_invalid_regex_degrades envInvalid mapsInvalid rowSesPr "xx foo (yy"
      ⟨Or.inr ⟨"SES-PR", by decide⟩, Or.inr ⟨"SARS-COV2 - PFIZER", by decide⟩⟩⟩

/-- C8 (amended): a quantity field that is absent, null or an empty string
is treated as zero: the row contributes 0 to the overview total and to its
time bucket, and the conversion `int(r.get("QTDE") or 0)` succeeds.  (A
non-numeric non-empty string quantity instead raises, see the
counterexample.) -/
theorem C8_qtde_zero (r : Record) (rows : List Record)
    (hq : dictGet r "QTDE" = Option.none ∨ dictGet r "QTDE" = some PyVal.none ∨
      dictGet r "QTDE" = some (PyVal.str "")) :
    qtdeInt r = Except.ok 0 ∧
    overviewTotal (r :: rows) = overviewTotal rows ∧
    ∀ bs, tsFold bs (r :: rows) =
      (anoMesKey r).bind (fun k => tsFold (bumpBucket bs k 0) rows) := by
  have hq0 : qtdeInt r = Except.ok 0 := by
    unfold qtdeInt
    rcases hq with h | h | h <;> rw [h] <;> rfl
  refine ⟨hq0, ?_, ?_⟩
  · unfold overviewTotal
    rw [List.foldlM_cons, hq0]
    rfl
  · intro bs
    unfold tsFold
    rw [List.foldlM_cons]
    cases hk : anoMesKey r with
    | error e =>
      simp only [hk, hq0]
      rfl
    | ok k =>
      simp only [hk, hq0]
      rfl

/-- Witness for C8: a row with no QTDE key contributes zero to the overview
total and to its time bucket next to a row with QTDE = 7. -/
theorem C8_qtde_zero_wit :
    dictGet rowNoQtde "QTDE" = Option.none ∧
    (qtdeInt rowNoQtde = Except.ok 0 ∧
      overviewTotal (rowNoQtde :: [rowQtde7]) = overviewTotal [rowQtde7] ∧
      ∀ bs, tsFold bs (rowNoQtde :: [rowQtde7]) =
        (anoMesKey rowNoQtde).bind (fun k => tsFold (bumpBucket bs k 0) [rowQtde7])) :=
  ⟨by decide, C8_qtde_zero rowNoQtde [rowQtde7] (Or.inl (by decide))⟩

/-- C8 counterexample: a row whose QTDE is the non-numeric string "N/A"
makes both the overview total and the timeseries aggregation raise
(`int("N/A")` is a ValueError) instead of being treated as zero, while the
same aggregations succeed on a numeric row. -/
theorem C8_qtde_nonnumeric_cex :
    overviewTotal [rowBadQtde] = Except.error () ∧
    timeseriesBuckets [rowBadQtde] = Except.error () ∧
    overviewTotal [rowQtde7] = Except.ok 7 ∧
    timeseriesBuckets [rowQtde7] = Except.ok [("2021-05", 7)] :=
  ⟨rfl, rfl, rfl, rfl⟩

/-- C9: normalize_record augments a raw row rather than replacing it: on
every successful run, every key other than the two derived fields
tx_sigla_norm and tx_insumo_norm maps to exactly the value it had in the
input record (so no other key is changed, added or removed). -/
theorem C9_augments_record (env : ReEnv) (maps : List Mapping) (rec out : Record)
    (k : String) (hok : normalizeRecordE env maps rec = Except.ok out)
    (h1 : k ≠ "tx_sigla_norm") (h2 : k ≠ "tx_insumo_norm") :
    dictGet out k = dictGet rec k := by
  obtain ⟨w1, w2, hshape, _, _⟩ := normalizeRecordE_ok_shape env maps rec out hok
  rw [hshape, dictGet_dictSet_ne _ _ _ _ h2, dictGet_dictSet_ne _ _ _ _ h1]

/-- Witness for C9: on the concrete row `rowSesPr` the run succeeds and the
"QTDE" field of the output equals that of the input. -/
theorem C9_augments_record_wit :
    normalizeRecordE litEnv [] rowSesPr = Except.ok rowSesPrOut ∧
    dictGet rowSesPrOut "QTDE" = dictGet rowSesPr "QTDE" :=
  ⟨rfl, C9_augments_record litEnv [] rowSesPr rowSesPrOut "QTDE" rfl
    (by decide) (by decide)⟩

/-- C10: every record returned by normalize_record carries both derived
keys: tx_sigla_norm and tx_insumo_norm are present on every successful
control path, each bound to a string or to null. -/
theorem C10_derived_keys_present (env : ReEnv) (maps : List Mapping) (rec out : Record)
    (hok : normalizeRecordE env maps rec = Except.ok out) :
    (∃ v, dictGet out "tx_sigla_norm" = some v ∧ (v = PyVal.none ∨ ∃ s, v = PyVal.str s)) ∧
    (∃ v, dictGet out "tx_insumo_norm" = some v ∧ (v = PyVal.none ∨ ∃ s, v = PyVal.str s)) := by
  obtain ⟨w1, w2, hshape, hw1, hw2⟩ := normalizeRecordE_ok_shape env maps rec out hok
  constructor
  · refine ⟨w1, ?_, hw1⟩
    rw [hshape, dictGet_dictSet_ne _ _ _ _ (by decide), dictGet_dictSet_self]
  · refine ⟨w2, ?_, hw2⟩
    rw [hshape, dictGet_dictSet_self]

/-- Witness for C10: the concrete successful run on `rowSesPr` carries both
derived keys. -/
theorem C10_derived_keys_present_wit :
    normalizeRecordE trivEnv [] rowSesPr = Except.ok rowSesPrOut ∧
    ((∃ v, dictGet rowSesPrOut "tx_sigla_norm" = some v ∧
        (v = PyVal.none ∨ ∃ s, v = PyVal.str s)) ∧
      (∃ v, dictGet rowSesPrOut "tx_insumo_norm" = some v ∧
        (v = PyVal.none ∨ ∃ s, v = PyVal.str s))) :=
  ⟨rfl, C10_derived_keys_present trivEnv [] rowSesPr rowSesPrOut rfl⟩

